import Mathlib

/-!
Shallow embedding of the face-tracking core of `ag-reachy-mini-vision-tracking`
(`vision/pid_controller.py`, `vision/face_tracker.py`, `robot/controller.py`,
`vision/video_processor.py`, `app_state.py`), with theorems settling the claims of the spec about it.  Python floats are modelled as rationals (the claims are about
exact arithmetic identities and clamping, not rounding); the transcendental
antenna oscillation is modelled over the reals.
-/

namespace VisionTracking

/-- `np.clip(x, lo, hi)` from numpy: `min(max(x, lo), hi)` (when `lo > hi` the
result is `hi`, matching numpy). -/
def np_clip (x lo hi : ℚ) : ℚ := min (max x lo) hi

theorem np_clip_bounds (x lo hi : ℚ) (h : lo ≤ hi) :
    lo ≤ np_clip x lo hi ∧ np_clip x lo hi ≤ hi := by
  unfold np_clip
  exact ⟨le_min (le_max_right x lo) h, min_le_right _ _⟩

theorem np_clip_abs_le (x L : ℚ) (h : 0 ≤ L) : |np_clip x (-L) L| ≤ L := by
  have h2 : -L ≤ L := by linarith
  obtain ⟨h3, h4⟩ := np_clip_bounds x (-L) L h2
  exact abs_le.mpr ⟨h3, h4⟩

theorem np_clip_eq_self (x lo hi : ℚ) (h1 : lo ≤ x) (h2 : x ≤ hi) :
    np_clip x lo hi = x := by
  unfold np_clip
  rw [max_eq_left h1, min_eq_left h2]

/-- State of `PIDController` (`vision/pid_controller.py`): gains `kp`, `ki`,
`kd`, clamp limits, accumulated `_integral` and `_prev_error`. -/
structure PIDController where
  kp : ℚ
  ki : ℚ
  kd : ℚ
  output_limit : ℚ
  integral_limit : ℚ
  integral : ℚ
  prev_error : ℚ
deriving DecidableEq, Repr

/-- `PIDController.__init__(kp, ki, kd, output_limit, integral_limit)`:
`_integral = 0.0`, `_prev_error = 0.0`. -/
def PIDController.mk_init (kp ki kd output_limit integral_limit : ℚ) : PIDController :=
  ⟨kp, ki, kd, output_limit, integral_limit, 0, 0⟩

/-- `PIDController.update(error, dt)`: floors non-positive `dt` to `1e-3`,
accumulates `error * dt` into the integral and clamps it to
`±integral_limit`, computes the derivative `(error - _prev_error) / dt`,
updates `_prev_error`, and returns the output
`kp*error + ki*integral + kd*derivative` clamped to `±output_limit`.
Returned as (new state, output). -/
def PIDController.update (c : PIDController) (error dt : ℚ) : PIDController × ℚ :=
  let dt1 := if dt ≤ 0 then 1 / 1000 else dt
  let integral1 := np_clip (c.integral + error * dt1) (-c.integral_limit) c.integral_limit
  let derivative := (error - c.prev_error) / dt1
  let output := c.kp * error + c.ki * integral1 + c.kd * derivative
  ({ c with integral := integral1, prev_error := error },
   np_clip output (-c.output_limit) c.output_limit)

/-- `PIDController.reset()`: zero the integral and the previous error. -/
def PIDController.reset (c : PIDController) : PIDController :=
  { c with integral := 0, prev_error := 0 }

/-- Run a sequence of `update(error, dt)` calls, returning the controller state
and output after each call, in order. -/
def PIDController.runUpdates (c : PIDController) : List (ℚ × ℚ) → List (PIDController × ℚ)
  | [] => []
  | (e, dt) :: rest => c.update e dt :: (c.update e dt).1.runUpdates rest

theorem PIDController.update_integral (c : PIDController) (e dt : ℚ) :
    (c.update e dt).1.integral
      = np_clip (c.integral + e * (if dt ≤ 0 then 1 / 1000 else dt))
          (-c.integral_limit) c.integral_limit := rfl

theorem PIDController.update_output (c : PIDController) (e dt : ℚ) :
    (c.update e dt).2
      = np_clip
          (c.kp * e + c.ki * (c.update e dt).1.integral
            + c.kd * ((e - c.prev_error) / (if dt ≤ 0 then 1 / 1000 else dt)))
          (-c.output_limit) c.output_limit := rfl

theorem PIDController.update_keeps_limits (c : PIDController) (e dt : ℚ) :
    (c.update e dt).1.output_limit = c.output_limit
      ∧ (c.update e dt).1.integral_limit = c.integral_limit := ⟨rfl, rfl⟩

/-- Claim C1: for every sequence of `PIDController.update(error, dt)` calls with
`dt > 0` (and nonnegative clamp limits, as configured), every returned output
lies within `±output_limit` and after every call the internal integral lies
within `±integral_limit`. -/
theorem C1_pid_output_and_integral_bounded (c : PIDController) (inputs : List (ℚ × ℚ))
    (hL : 0 ≤ c.output_limit) (hI : 0 ≤ c.integral_limit)
    (hdt : ∀ p ∈ inputs, 0 < p.2) :
    ∀ s ∈ c.runUpdates inputs,
      |s.2| ≤ c.output_limit ∧ |s.1.integral| ≤ c.integral_limit := by
  induction inputs generalizing c with
  | nil =>
    intro s hs
    simp [PIDController.runUpdates] at hs
  | cons p rest ih =>
    obtain ⟨e, dt⟩ := p
    intro s hs
    rw [PIDController.runUpdates] at hs
    rcases List.mem_cons.mp hs with hhead | htail
    · subst hhead
      constructor
      · rw [PIDController.update_output]
        exact np_clip_abs_le _ _ hL
      · rw [PIDController.update_integral]
        exact np_clip_abs_le _ _ hI
    · have hL1 : 0 ≤ (c.update e dt).1.output_limit := by
        rw [(PIDController.update_keeps_limits c e dt).1]; exact hL
      have hI1 : 0 ≤ (c.update e dt).1.integral_limit := by
        rw [(PIDController.update_keeps_limits c e dt).2]; exact hI
      have hdt1 : ∀ p ∈ rest, 0 < p.2 := fun q hq => hdt q (List.mem_cons_of_mem _ hq)
      have := ih (c.update e dt).1 hL1 hI1 hdt1 s htail
      rw [(PIDController.update_keeps_limits c e dt).1,
        (PIDController.update_keeps_limits c e dt).2] at this
      exact this

/-- Witness for C1 at a concrete controller and input sequence. -/
theorem C1_pid_output_and_integral_bounded_witness :
    |((PIDController.mk_init 30 1 5 1 (1/2)).update 2 (1/30)).2| ≤ 1
      ∧ |((PIDController.mk_init 30 1 5 1 (1/2)).update 2 (1/30)).1.integral| ≤ 1/2 :=
  C1_pid_output_and_integral_bounded (PIDController.mk_init 30 1 5 1 (1/2))
    [(2, 1/30), (-3, 1/30)] (by norm_num [PIDController.mk_init])
    (by norm_num [PIDController.mk_init])
    (by intro p hp; fin_cases hp <;> norm_num)
    ((PIDController.mk_init 30 1 5 1 (1/2)).update 2 (1/30))
    (by rw [PIDController.runUpdates]; exact List.mem_cons_self _ _)

/-- A controller with `kp = 0`, `ki = 1`, `kd = 0`, `output_limit = 1`,
`integral_limit = 1/2` and nonzero internal state. -/
def c7_cex : PIDController := ⟨0, 1, 0, 1, 1/2, 1/4, 1/3⟩

/-- Claim C7 counterexample: after `reset()`, the next `update(error, dt)` with
`dt > 0` does not in general return `kp * error`: with `kp = 0`, `ki = 1`,
`kd = 0`, the call `update(1, 1)` after a reset returns
`ki * clip(1*1, ±1/2) = 1/2`, not `kp * 1 = 0` — the integral of the current call itself
 (and, with `kd ≠ 0`, derivative) terms still contribute. -/
theorem C7_counterexample : (c7_cex.reset.update 1 1).2 ≠ c7_cex.kp * 1 := by
  norm_num [c7_cex, PIDController.reset, PIDController.update, np_clip]

/-- Claim C7 (amended): `reset()` restores the controller to its
freshly-constructed state, so the next `update(error, dt)` behaves exactly as
the first call of a new controller with the same gains and limits; its output
equals `kp * error` exactly when `ki = 0`, `kd = 0` and `|kp * error|` does not
exceed `output_limit` (in general the integral term of the current call itself,
`ki * clip(error*dt)` and derivative term `kd * error/dt` still contribute, and
the output clamp applies). -/
theorem C7_reset_next_update (c : PIDController) (e dt : ℚ) (hdt : 0 < dt) :
    c.reset.update e dt
        = (PIDController.mk_init c.kp c.ki c.kd c.output_limit c.integral_limit).update e dt
      ∧ (c.ki = 0 → c.kd = 0 → |c.kp * e| ≤ c.output_limit →
          (c.reset.update e dt).2 = c.kp * e) := by
  constructor
  · rfl
  · intro hki hkd hbound
    rw [PIDController.update_output]
    have hprev : c.reset.prev_error = 0 := rfl
    have hL : c.reset.output_limit = c.output_limit := rfl
    have hkp : c.reset.kp = c.kp := rfl
    have hki2 : c.reset.ki = c.ki := rfl
    have hkd2 : c.reset.kd = c.kd := rfl
    rw [hprev, hL, hkp, hki2, hkd2, hki, hkd]
    ring_nf
    obtain ⟨h1, h2⟩ := abs_le.mp hbound
    rw [mul_comm c.kp e] at h1 h2 ⊢
    exact np_clip_eq_self _ _ _ h1 h2

/-- Witness for the amended C7 at `kp = 2`, `ki = 0`, `kd = 0`, `error = 3`,
`dt = 1`: the post-reset output is exactly `2 * 3`. -/
theorem C7_reset_next_update_witness :
    ((PIDController.mk_init 2 0 0 10 1).reset.update 3 1).2 = 2 * 3 :=
  (C7_reset_next_update (PIDController.mk_init 2 0 0 10 1) 3 1 (by norm_num)).2
    rfl rfl (by norm_num [PIDController.mk_init])

/-- `DetectedFace` (`vision/face_tracker.py`): normalized bounding-box center,
size and detection confidence. -/
structure DetectedFace where
  x_center : ℚ
  y_center : ℚ
  width : ℚ
  height : ℚ
  score : ℚ
deriving DecidableEq, Repr

/-- `DetectedFace.area`: `width * height`. -/
def DetectedFace.area (f : DetectedFace) : ℚ := f.width * f.height

/-- Python `max(faces, key=lambda f: f.area)`: left fold keeping the current
best element and replacing it only when a strictly larger key appears, so on
ties the earliest maximal element is kept. -/
def max_by_area (best : DetectedFace) : List DetectedFace → DetectedFace
  | [] => best
  | f :: rest => max_by_area (if best.area < f.area then f else best) rest

/-- `FaceTracker._select_target(faces)`: `None` on an empty list, otherwise
`max(faces, key=lambda f: f.area)`. -/
def select_target : List DetectedFace → Option DetectedFace
  | [] => none
  | f :: rest => some (max_by_area f rest)

/-- Modelled from the words of the spec (for comparison with `select_target`):
the first face in detector order whose area is maximal, `none` on an empty
list. -/
def select_target_spec (faces : List DetectedFace) : Option DetectedFace :=
  faces.find? (fun f => faces.all (fun g => decide (g.area ≤ f.area)))

/-- Full characterisation of the Python `max` fold: the result is `best` and
nothing in the list beats it, or the result sits at an index `i` in the list,
strictly beats `best` and everything before index `i`, and is maximal. -/
theorem max_by_area_spec (l : List DetectedFace) (best : DetectedFace) :
    (max_by_area best l = best ∧ ∀ g ∈ l, g.area ≤ best.area) ∨
    (∃ i, ∃ h : i < l.length, l[i] = max_by_area best l ∧
      best.area < (max_by_area best l).area ∧
      (∀ g ∈ l, g.area ≤ (max_by_area best l).area) ∧
      (∀ j, ∀ hj : j < l.length, j < i → (l[j]).area < (max_by_area best l).area)) := by
  induction l generalizing best with
  | nil => exact Or.inl ⟨rfl, by simp⟩
  | cons f rest ih =>
    by_cases hcmp : best.area < f.area
    · have heq : max_by_area best (f :: rest) = max_by_area f rest := by
        simp [max_by_area, hcmp]
      rw [heq]
      rcases ih f with ⟨h1, h2⟩ | ⟨i, hi, hget, hlt, hall, hfirst⟩
      · refine Or.inr ⟨0, by simp, ?_, ?_, ?_, ?_⟩
        · simpa using h1.symm
        · rw [h1]; exact hcmp
        · intro g hg
          rw [h1]
          rcases List.mem_cons.mp hg with rfl | hg2
          · exact le_refl _
          · exact h2 g hg2
        · intro j hj hj0
          omega
      · refine Or.inr ⟨i + 1, by simpa using Nat.succ_lt_succ hi, ?_, ?_, ?_, ?_⟩
        · simpa using hget
        · exact lt_trans hcmp hlt
        · intro g hg
          rcases List.mem_cons.mp hg with rfl | hg2
          · exact le_of_lt hlt
          · exact hall g hg2
        · intro j hjlen hji
          cases j with
          | zero => simpa using hlt
          | succ k =>
            have hk : k < rest.length := by simpa using hjlen
            have := hfirst k hk (by omega)
            simpa using this
    · have heq : max_by_area best (f :: rest) = max_by_area best rest := by
        simp [max_by_area, hcmp]
      rw [heq]
      push_neg at hcmp
      rcases ih best with ⟨h1, h2⟩ | ⟨i, hi, hget, hlt, hall, hfirst⟩
      · refine Or.inl ⟨h1, ?_⟩
        intro g hg
        rcases List.mem_cons.mp hg with rfl | hg2
        · exact hcmp
        · exact h2 g hg2
      · refine Or.inr ⟨i + 1, by simpa using Nat.succ_lt_succ hi, ?_, ?_, ?_, ?_⟩
        · simpa using hget
        · exact hlt
        · intro g hg
          rcases List.mem_cons.mp hg with rfl | hg2
          · exact lt_of_le_of_lt hcmp hlt |>.le
          · exact hall g hg2
        · intro j hjlen hji
          cases j with
          | zero => simpa using lt_of_le_of_lt hcmp hlt
          | succ k =>
            have hk : k < rest.length := by simpa using hjlen
            have := hfirst k hk (by omega)
            simpa using this

/-- `find?` returns the element at index `i` when the predicate holds there
and fails strictly before it. -/
theorem find_at_first_index {α : Type} (p : α → Bool) (l : List α) (i : ℕ)
    (h : i < l.length) (hp : p (l[i]) = true)
    (hbefore : ∀ j, ∀ hj : j < l.length, j < i → p (l[j]) = false) :
    l.find? p = some (l[i]) := by
  induction l generalizing i with
  | nil => simp at h
  | cons a tl ih =>
    cases i with
    | zero =>
      simp only [List.getElem_cons_zero] at hp ⊢
      rw [List.find?_cons_of_pos _ hp]
    | succ k =>
      have hpa : p a = false := hbefore 0 (by simp) (Nat.succ_pos k)
      rw [List.find?_cons_of_neg _ (by simp [hpa])]
      have hk : k < tl.length := by simpa using h
      have hp2 : p (tl[k]) = true := by simpa using hp
      have hb2 : ∀ j, ∀ hj : j < tl.length, j < k → p (tl[j]) = false := by
        intro j hj hjk
        have := hbefore (j + 1) (by simpa using Nat.succ_lt_succ hj) (by omega)
        simpa using this
      simpa using ih k hk hp2 hb2

/-- Claim C2: target selection is deterministic — on an empty face list the
target is `none`; on a non-empty list the selected target is exactly the first
face in detector-provided order attaining the maximum area (ties go to the
earlier face). -/
theorem C2_select_target_first_max (faces : List DetectedFace) :
    select_target faces = select_target_spec faces := by
  cases faces with
  | nil => rfl
  | cons f rest =>
    show some (max_by_area f rest)
      = (f :: rest).find? (fun x => (f :: rest).all (fun g => decide (g.area ≤ x.area)))
    rcases max_by_area_spec rest f with ⟨h1, h2⟩ | ⟨i, hi, hget, hlt, hall, hfirst⟩
    · rw [h1]
      have hp : ((f :: rest).all (fun g => decide (g.area ≤ f.area))) = true := by
        rw [List.all_eq_true]
        intro g hg
        rcases List.mem_cons.mp hg with rfl | hg2
        · simp
        · simpa using h2 g hg2
      rw [List.find?_cons_of_pos _ (by simpa using hp)]
    · set t := max_by_area f rest with ht
      have hmem : t ∈ f :: rest := by
        rw [← hget]
        exact List.mem_cons_of_mem f (List.getElem_mem hi)
      have hlen : i + 1 < (f :: rest).length := by simpa using Nat.succ_lt_succ hi
      have hidx : (f :: rest)[i + 1] = t := by simpa using hget
      have hp : (fun x => (f :: rest).all (fun g => decide (g.area ≤ x.area)))
          ((f :: rest)[i + 1]) = true := by
        simp only []
        rw [hidx, List.all_eq_true]
        intro g hg
        rcases List.mem_cons.mp hg with rfl | hg2
        · simpa using le_of_lt hlt
        · simpa using hall g hg2
      have hbefore : ∀ j, ∀ hj : j < (f :: rest).length, j < i + 1 →
          (fun x => (f :: rest).all (fun g => decide (g.area ≤ x.area)))
            ((f :: rest)[j]) = false := by
        intro j hj hji
        have hjarea : ((f :: rest)[j]).area < t.area := by
          cases j with
          | zero => simpa using hlt
          | succ k =>
            have hk : k < rest.length := by simpa using hj
            have := hfirst k hk (by omega)
            simpa using this
        simp only []
        rw [← Bool.not_eq_true]
        intro hforall
        rw [List.all_eq_true] at hforall
        have hx := hforall t hmem
        simp only [decide_eq_true_eq] at hx
        exact absurd hx (not_le.mpr hjarea)
      have hfind := find_at_first_index
        (fun x => (f :: rest).all (fun g => decide (g.area ≤ x.area)))
        (f :: rest) (i + 1) hlen hp hbefore
      rw [hidx] at hfind
      rw [hfind]

/-- `TrackingResult` (`vision/face_tracker.py`): per-frame tracking snapshot
with dataclass defaults `target=None`, `dx=dy=0.0`, `tracking=False`,
corrections `0.0`. -/
structure TrackingResult where
  faces : List DetectedFace
  target : Option DetectedFace
  dx : ℚ
  dy : ℚ
  tracking : Bool
  yaw_correction_deg : ℚ
  pitch_correction_deg : ℚ
deriving DecidableEq, Repr

/-- Mutable state of `FaceTracker`: the two PID axes and the lost-frame
counter with its threshold (`TRACKING_LOST_THRESHOLD`).  The external
MediaPipe detector is out of scope; `update` below takes the parsed
`DetectedFace` list it would produce. -/
structure FaceTracker where
  pid_yaw : PIDController
  pid_pitch : PIDController
  lost_frames : ℕ
  lost_threshold : ℕ
deriving DecidableEq, Repr

/-- `FaceTracker.update(frame, timestamp_ms, dt)` after detection and
`_parse_detections`: select the target; on no target increment
`_lost_frames`, reset both PID axes once the counter reaches
`_lost_threshold`, and return a default `TrackingResult` carrying the raw
face list; on a target zero the counter, compute `dx`, `dy` relative to the
frame center, drive the yaw PID on `dx` (output negated) and the pitch PID
on `dy`, and return the populated result. -/
def FaceTracker.update (tr : FaceTracker) (faces : List DetectedFace) (dt : ℚ) :
    FaceTracker × TrackingResult :=
  match select_target faces with
  | none =>
    let lost := tr.lost_frames + 1
    let tr1 :=
      if tr.lost_threshold ≤ lost then
        { tr with lost_frames := lost, pid_yaw := tr.pid_yaw.reset,
                  pid_pitch := tr.pid_pitch.reset }
      else { tr with lost_frames := lost }
    (tr1, ⟨faces, none, 0, 0, false, 0, 0⟩)
  | some target =>
    let dx := target.x_center - 1/2
    let dy := target.y_center - 1/2
    let yawStep := tr.pid_yaw.update dx dt
    let pitchStep := tr.pid_pitch.update dy dt
    ({ tr with lost_frames := 0, pid_yaw := yawStep.1, pid_pitch := pitchStep.1 },
     ⟨faces, some target, dx, dy, true, -yawStep.2, pitchStep.2⟩)

/-- Run `update` over a sequence of frames, each given as its parsed face
list and `dt`, returning the final tracker state. -/
def FaceTracker.runFrames (tr : FaceTracker) (frames : List (List DetectedFace × ℚ)) :
    FaceTracker :=
  frames.foldl (fun t fr => (t.update fr.1 fr.2).1) tr

/-- Claim C3: on every frame where `FaceTracker.update` finds no target, the
returned `TrackingResult` has `tracking = false`, both corrections exactly
`0.0`, and the raw (possibly empty) face list attached. -/
theorem C3_no_target_result (tr : FaceTracker) (faces : List DetectedFace) (dt : ℚ)
    (h : select_target faces = none) :
    (tr.update faces dt).2.tracking = false
      ∧ (tr.update faces dt).2.yaw_correction_deg = 0
      ∧ (tr.update faces dt).2.pitch_correction_deg = 0
      ∧ (tr.update faces dt).2.faces = faces := by
  unfold FaceTracker.update
  rw [h]
  exact ⟨rfl, rfl, rfl, rfl⟩

/-- A concrete tracker used by the witnesses below. -/
def tracker0 : FaceTracker :=
  ⟨PIDController.mk_init 30 0 5 30 (1/2), PIDController.mk_init 20 0 3 20 (1/2), 0, 10⟩

/-- Witness for C3 on an empty frame. -/
theorem C3_no_target_result_witness :
    (tracker0.update [] 1).2.tracking = false
      ∧ (tracker0.update [] 1).2.yaw_correction_deg = 0
      ∧ (tracker0.update [] 1).2.pitch_correction_deg = 0
      ∧ (tracker0.update [] 1).2.faces = [] :=
  C3_no_target_result tracker0 [] 1 rfl

theorem FaceTracker.update_no_target_counter (tr : FaceTracker)
    (faces : List DetectedFace) (dt : ℚ) (h : select_target faces = none) :
    ((tr.update faces dt).1).lost_frames = tr.lost_frames + 1
      ∧ ((tr.update faces dt).1).lost_threshold = tr.lost_threshold := by
  unfold FaceTracker.update
  rw [h]
  by_cases hth : tr.lost_threshold ≤ tr.lost_frames + 1 <;> simp [hth]

theorem FaceTracker.update_no_target_reset (tr : FaceTracker)
    (faces : List DetectedFace) (dt : ℚ) (h : select_target faces = none)
    (hth : tr.lost_threshold ≤ tr.lost_frames + 1) :
    ((tr.update faces dt).1).pid_yaw = tr.pid_yaw.reset
      ∧ ((tr.update faces dt).1).pid_pitch = tr.pid_pitch.reset := by
  unfold FaceTracker.update
  rw [h]
  simp [hth]

theorem FaceTracker.runFrames_no_target (frames : List (List DetectedFace × ℚ)) :
    ∀ tr : FaceTracker, (∀ fr ∈ frames, select_target fr.1 = none) →
      (tr.runFrames frames).lost_frames = tr.lost_frames + frames.length
        ∧ (tr.runFrames frames).lost_threshold = tr.lost_threshold := by
  induction frames with
  | nil => intro tr _; exact ⟨rfl, rfl⟩
  | cons fr rest ih =>
    intro tr hnone
    have hfr : select_target fr.1 = none := hnone fr (List.mem_cons_self _ _)
    have hrest : ∀ q ∈ rest, select_target q.1 = none :=
      fun q hq => hnone q (List.mem_cons_of_mem _ hq)
    have hstep := FaceTracker.update_no_target_counter tr fr.1 fr.2 hfr
    have hfold := ih ((tr.update fr.1 fr.2).1) hrest
    have hrun : tr.runFrames (fr :: rest) = ((tr.update fr.1 fr.2).1).runFrames rest := rfl
    rw [hrun, hfold.1, hfold.2, hstep.1, hstep.2]
    constructor
    · simp only [List.length_cons]
      omega
    · rfl

/-- Claim C4: the lost-frames counter resets to 0 on any update with a valid
target and increments by exactly 1 on every update without one; with
`lost_threshold = 10`, after exactly 10 consecutive no-target frames both PID
integrals and previous errors are zero, while after 9 they are not
necessarily zero. -/
theorem C4_lost_frames (tr : FaceTracker) (hth : tr.lost_threshold = 10) :
    (∀ faces dt, select_target faces ≠ none →
        ((tr.update faces dt).1).lost_frames = 0)
      ∧ (∀ faces dt, select_target faces = none →
          ((tr.update faces dt).1).lost_frames = tr.lost_frames + 1)
      ∧ (∀ frames : List (List DetectedFace × ℚ),
          (∀ fr ∈ frames, select_target fr.1 = none) → frames.length = 10 →
          tr.lost_frames = 0 →
          (tr.runFrames frames).pid_yaw.integral = 0
            ∧ (tr.runFrames frames).pid_yaw.prev_error = 0
            ∧ (tr.runFrames frames).pid_pitch.integral = 0
            ∧ (tr.runFrames frames).pid_pitch.prev_error = 0)
      ∧ (∃ tr0 : FaceTracker, ∃ frames : List (List DetectedFace × ℚ),
          tr0.lost_threshold = 10 ∧ tr0.lost_frames = 0
            ∧ (∀ fr ∈ frames, select_target fr.1 = none) ∧ frames.length = 9
            ∧ (tr0.runFrames frames).pid_yaw.integral ≠ 0) := by
  refine ⟨?_, ?_, ?_, ?_⟩
  · intro faces dt hsome
    obtain ⟨t, ht⟩ := Option.ne_none_iff_exists.mp hsome
    unfold FaceTracker.update
    rw [← ht]
  · intro faces dt hnone
    exact (FaceTracker.update_no_target_counter tr faces dt hnone).1
  · intro frames hnone hlen hzero
    rcases List.eq_nil_or_concat frames with rfl | ⟨init, last, rfl⟩
    · simp at hlen
    · rw [List.concat_eq_append] at hnone hlen ⊢
      have hinit : ∀ fr ∈ init, select_target fr.1 = none :=
        fun q hq => hnone q (by simp [hq])
      have hlast : select_target last.1 = none := hnone last (by simp)
      have hmid := FaceTracker.runFrames_no_target init tr hinit
      have hrun : tr.runFrames (init ++ [last])
          = ((tr.runFrames init).update last.1 last.2).1 := by
        unfold FaceTracker.runFrames
        rw [List.foldl_append]
        rfl
      have hlen9 : init.length = 9 := by
        have := hlen
        simp [List.length_append] at this
        omega
      have hcount : (tr.runFrames init).lost_frames = 9 := by
        rw [hmid.1, hzero, hlen9]
      have hth2 : (tr.runFrames init).lost_threshold
          ≤ (tr.runFrames init).lost_frames + 1 := by
        rw [hmid.2, hth, hcount]
      have hreset := FaceTracker.update_no_target_reset (tr.runFrames init)
        last.1 last.2 hlast hth2
      rw [hrun, hreset.1, hreset.2]
      exact ⟨rfl, rfl, rfl, rfl⟩
  · refine ⟨⟨⟨30, 0, 5, 30, 1/2, 1/4, 0⟩, PIDController.mk_init 20 0 3 20 (1/2), 0, 10⟩,
      List.replicate 9 ([], 1), rfl, rfl, ?_, by simp, ?_⟩
    · intro fr hfr
      rw [List.eq_of_mem_replicate hfr]
      rfl
    · norm_num [FaceTracker.runFrames, FaceTracker.update, List.replicate,
        select_target, PIDController.reset]

/-- Witness for C4: a concrete tracker with threshold 10 whose yaw integral is
zero after 10 consecutive empty frames. -/
theorem C4_lost_frames_witness :
    (tracker0.runFrames (List.replicate 10 ([], 1))).pid_yaw.integral = 0 :=
  ((C4_lost_frames tracker0 rfl).2.2.1 (List.replicate 10 ([], 1))
    (fun fr hfr => by rw [List.eq_of_mem_replicate hfr]; rfl) (by simp) rfl).1

/-- `RobotController` head-pose state (`robot/controller.py`): the relevant
configuration bounds (`HEAD_YAW_AMPLITUDE`, `HEAD_PITCH_MIN`,
`HEAD_PITCH_MAX`) and the accumulated absolute head angles
`_current_yaw_deg`, `_current_pitch_deg`.  The antenna oscillation, which
uses real-valued trigonometric functions, is modelled separately below. -/
structure RobotController where
  HEAD_YAW_AMPLITUDE : ℚ
  HEAD_PITCH_MIN : ℚ
  HEAD_PITCH_MAX : ℚ
  current_yaw_deg : ℚ
  current_pitch_deg : ℚ
deriving DecidableEq, Repr

/-- `RobotController.__init__`: start at the neutral pose `(0, 0)`. -/
def RobotController.mk_init (A Pmin Pmax : ℚ) : RobotController := ⟨A, Pmin, Pmax, 0, 0⟩

/-- State change of `RobotController.calculate_head_pose(tracking_result)`:
when a result is present and `tracking` is true, add its corrections to the
persisted absolute yaw/pitch then clamp each to its configured bound;
otherwise hold the previous pose. -/
def RobotController.head_pose_step (rc : RobotController) :
    Option TrackingResult → RobotController
  | some r =>
    if r.tracking then
      { rc with
        current_yaw_deg :=
          np_clip (rc.current_yaw_deg + r.yaw_correction_deg)
            (-rc.HEAD_YAW_AMPLITUDE) rc.HEAD_YAW_AMPLITUDE,
        current_pitch_deg :=
          np_clip (rc.current_pitch_deg + r.pitch_correction_deg)
            rc.HEAD_PITCH_MIN rc.HEAD_PITCH_MAX }
    else rc
  | none => rc

/-- `RobotController.calculate_head_pose(tracking_result)`: the state change
above, together with the `(yaw_deg, pitch_deg)` pair handed to
`create_head_pose`. -/
def RobotController.calculate_head_pose (rc : RobotController)
    (tracking_result : Option TrackingResult) : RobotController × (ℚ × ℚ) :=
  ((rc.head_pose_step tracking_result),
   ((rc.head_pose_step tracking_result).current_yaw_deg,
    (rc.head_pose_step tracking_result).current_pitch_deg))

/-- Run `calculate_head_pose` over a sequence of control ticks, returning the
final controller state. -/
def RobotController.runHeadPoses (rc : RobotController)
    (results : List (Option TrackingResult)) : RobotController :=
  results.foldl (fun r res => (r.calculate_head_pose res).1) rc

/-- Claim C5: a `calculate_head_pose` call with no tracking result, or with a
result whose `tracking` is false, leaves the persisted absolute yaw and pitch
(indeed the whole controller state) exactly unchanged, and reports the held
pose. -/
theorem C5_hold_last_position (rc : RobotController) (res : Option TrackingResult)
    (h : ∀ r, res = some r → r.tracking = false) :
    (rc.calculate_head_pose res).1 = rc
      ∧ (rc.calculate_head_pose res).2 = (rc.current_yaw_deg, rc.current_pitch_deg) := by
  cases res with
  | none => exact ⟨rfl, rfl⟩
  | some r =>
    have hr : r.tracking = false := h r rfl
    have hstep : rc.head_pose_step (some r) = rc := by
      simp [RobotController.head_pose_step, hr]
    unfold RobotController.calculate_head_pose
    rw [hstep]
    exact ⟨rfl, rfl⟩

/-- Witness for C5: a concrete controller holds its pose on a `none` result
and on a non-tracking result. -/
theorem C5_hold_last_position_witness :
    ((RobotController.mk_init 30 (-20) 20).calculate_head_pose none).1
      = RobotController.mk_init 30 (-20) 20
      ∧ ((RobotController.mk_init 30 (-20) 20).calculate_head_pose none).2
          = ((RobotController.mk_init 30 (-20) 20).current_yaw_deg,
             (RobotController.mk_init 30 (-20) 20).current_pitch_deg) :=
  C5_hold_last_position (RobotController.mk_init 30 (-20) 20) none
    (fun r hr => by cases hr)

/-- The clamping step keeps both persisted angles inside their configured
bounds and never touches the configuration fields. -/
theorem RobotController.head_pose_step_invariant (rc : RobotController)
    (res : Option TrackingResult)
    (hA : -rc.HEAD_YAW_AMPLITUDE ≤ rc.current_yaw_deg
      ∧ rc.current_yaw_deg ≤ rc.HEAD_YAW_AMPLITUDE)
    (hP : rc.HEAD_PITCH_MIN ≤ rc.current_pitch_deg
      ∧ rc.current_pitch_deg ≤ rc.HEAD_PITCH_MAX) :
    (-((rc.head_pose_step res).HEAD_YAW_AMPLITUDE)
        ≤ (rc.head_pose_step res).current_yaw_deg
      ∧ (rc.head_pose_step res).current_yaw_deg
        ≤ (rc.head_pose_step res).HEAD_YAW_AMPLITUDE)
      ∧ ((rc.head_pose_step res).HEAD_PITCH_MIN
          ≤ (rc.head_pose_step res).current_pitch_deg
        ∧ (rc.head_pose_step res).current_pitch_deg
          ≤ (rc.head_pose_step res).HEAD_PITCH_MAX)
      ∧ (rc.head_pose_step res).HEAD_YAW_AMPLITUDE = rc.HEAD_YAW_AMPLITUDE
      ∧ (rc.head_pose_step res).HEAD_PITCH_MIN = rc.HEAD_PITCH_MIN
      ∧ (rc.head_pose_step res).HEAD_PITCH_MAX = rc.HEAD_PITCH_MAX := by
  have hAle : -rc.HEAD_YAW_AMPLITUDE ≤ rc.HEAD_YAW_AMPLITUDE := le_trans hA.1 hA.2
  have hPle : rc.HEAD_PITCH_MIN ≤ rc.HEAD_PITCH_MAX := le_trans hP.1 hP.2
  cases res with
  | none => exact ⟨hA, hP, rfl, rfl, rfl⟩
  | some r =>
    cases hr : r.tracking with
    | false =>
      have hstep : rc.head_pose_step (some r) = rc := by
        simp [RobotController.head_pose_step, hr]
      rw [hstep]
      exact ⟨hA, hP, rfl, rfl, rfl⟩
    | true =>
      have hstep : rc.head_pose_step (some r)
          = { rc with
              current_yaw_deg :=
                np_clip (rc.current_yaw_deg + r.yaw_correction_deg)
                  (-rc.HEAD_YAW_AMPLITUDE) rc.HEAD_YAW_AMPLITUDE,
              current_pitch_deg :=
                np_clip (rc.current_pitch_deg + r.pitch_correction_deg)
                  rc.HEAD_PITCH_MIN rc.HEAD_PITCH_MAX } := by
        simp [RobotController.head_pose_step, hr]
      rw [hstep]
      exact ⟨np_clip_bounds _ _ _ hAle, np_clip_bounds _ _ _ hPle, rfl, rfl, rfl⟩

/-- Claim C6: starting from the neutral pose `(0, 0)` with a nonnegative yaw
amplitude and a pitch range containing 0 (as configured), after every sequence
of `calculate_head_pose` calls the persisted absolute yaw lies within
`±HEAD_YAW_AMPLITUDE` and the absolute pitch within
`[HEAD_PITCH_MIN, HEAD_PITCH_MAX]`. -/
theorem C6_pose_bounded (A Pmin Pmax : ℚ)
    (hA : 0 ≤ A) (hPmin : Pmin ≤ 0) (hPmax : 0 ≤ Pmax)
    (results : List (Option TrackingResult)) :
    -A ≤ ((RobotController.mk_init A Pmin Pmax).runHeadPoses results).current_yaw_deg
      ∧ ((RobotController.mk_init A Pmin Pmax).runHeadPoses results).current_yaw_deg ≤ A
      ∧ Pmin ≤ ((RobotController.mk_init A Pmin Pmax).runHeadPoses results).current_pitch_deg
      ∧ ((RobotController.mk_init A Pmin Pmax).runHeadPoses results).current_pitch_deg ≤ Pmax := by
  suffices hgen : ∀ (results : List (Option TrackingResult)) (rc : RobotController),
      rc.HEAD_YAW_AMPLITUDE = A → rc.HEAD_PITCH_MIN = Pmin → rc.HEAD_PITCH_MAX = Pmax →
      (-A ≤ rc.current_yaw_deg ∧ rc.current_yaw_deg ≤ A) →
      (Pmin ≤ rc.current_pitch_deg ∧ rc.current_pitch_deg ≤ Pmax) →
      -A ≤ (rc.runHeadPoses results).current_yaw_deg
        ∧ (rc.runHeadPoses results).current_yaw_deg ≤ A
        ∧ Pmin ≤ (rc.runHeadPoses results).current_pitch_deg
        ∧ (rc.runHeadPoses results).current_pitch_deg ≤ Pmax by
    exact hgen results (RobotController.mk_init A Pmin Pmax) rfl rfl rfl
      ⟨by simpa [RobotController.mk_init] using neg_nonpos.mpr hA,
       by simpa [RobotController.mk_init] using hA⟩
      ⟨by simpa [RobotController.mk_init] using hPmin,
       by simpa [RobotController.mk_init] using hPmax⟩
  intro results
  induction results with
  | nil => intro rc _ _ _ hyaw hpitch; exact ⟨hyaw.1, hyaw.2, hpitch.1, hpitch.2⟩
  | cons res rest ih =>
    intro rc hcfgA hcfgPmin hcfgPmax hyaw hpitch
    have hstep := RobotController.head_pose_step_invariant rc res
      (by rw [hcfgA]; exact hyaw) (by rw [hcfgPmin, hcfgPmax]; exact hpitch)
    have hrun : rc.runHeadPoses (res :: rest)
        = (rc.head_pose_step res).runHeadPoses rest := rfl
    rw [hrun]
    exact ih (rc.head_pose_step res)
      (by rw [hstep.2.2.1, hcfgA]) (by rw [hstep.2.2.2.1, hcfgPmin])
      (by rw [hstep.2.2.2.2, hcfgPmax])
      (by rw [← hcfgA, ← hstep.2.2.1]; exact hstep.1)
      (by rw [← hcfgPmin, ← hstep.2.2.2.1, ← hcfgPmax, ← hstep.2.2.2.2]; exact hstep.2.1)

/-- Witness for C6 at the configured defaults with an out-of-range
correction: the clamp keeps the pose inside the bounds. -/
theorem C6_pose_bounded_witness :
    -30 ≤ ((RobotController.mk_init 30 (-20) 20).runHeadPoses
        [some ⟨[], none, 0, 0, true, 100, -100⟩]).current_yaw_deg
      ∧ ((RobotController.mk_init 30 (-20) 20).runHeadPoses
          [some ⟨[], none, 0, 0, true, 100, -100⟩]).current_yaw_deg ≤ 30
      ∧ -20 ≤ ((RobotController.mk_init 30 (-20) 20).runHeadPoses
          [some ⟨[], none, 0, 0, true, 100, -100⟩]).current_pitch_deg
      ∧ ((RobotController.mk_init 30 (-20) 20).runHeadPoses
          [some ⟨[], none, 0, 0, true, 100, -100⟩]).current_pitch_deg ≤ 20 :=
  C6_pose_bounded 30 (-20) 20 (by norm_num) (by norm_num) (by norm_num)
    [some ⟨[], none, 0, 0, true, 100, -100⟩]

/-- Antenna configuration (`ANTENNA_AMPLITUDE` in degrees,
`ANTENNA_FREQUENCY` in Hz), the part of the config `calculate_antenna_positions`
reads. -/
structure AntennaConfig where
  ANTENNA_AMPLITUDE : ℝ
  ANTENNA_FREQUENCY : ℝ

/-- `np.deg2rad(x)`: multiply by `π / 180`. -/
noncomputable def deg2rad (x : ℝ) : ℝ := x * Real.pi / 180

/-- `RobotController.calculate_antenna_positions(elapsed_time, enabled)`
(`robot/controller.py`): `(0.0, 0.0)` when disabled, otherwise
`a = ANTENNA_AMPLITUDE * sin(2π * ANTENNA_FREQUENCY * elapsed_time)` in
degrees, returned as `deg2rad([a, -a])`.  The transcendentals force a
real-valued (noncomputable) model here. -/
noncomputable def calculate_antenna_positions (cfg : AntennaConfig)
    (elapsed_time : ℝ) (enabled : Bool) : ℝ × ℝ :=
  if !enabled then (0, 0)
  else
    (deg2rad (cfg.ANTENNA_AMPLITUDE
        * Real.sin (2 * Real.pi * cfg.ANTENNA_FREQUENCY * elapsed_time)),
     deg2rad (-(cfg.ANTENNA_AMPLITUDE
        * Real.sin (2 * Real.pi * cfg.ANTENNA_FREQUENCY * elapsed_time))))

/-- Claim C8: for every elapsed time, `calculate_antenna_positions` with
`enabled = false` returns exactly `(0.0, 0.0)`; with `enabled = true` it
computes `a = amplitude * sin(2π * frequency * elapsed_time)` (degrees) and
outputs the pair `(a, -a)` converted to radians — in particular the two
antenna angles are exact mirror images. -/
theorem C8_antenna_positions (cfg : AntennaConfig) (elapsed_time : ℝ) :
    calculate_antenna_positions cfg elapsed_time false = (0, 0)
      ∧ (calculate_antenna_positions cfg elapsed_time true).1
          = deg2rad (cfg.ANTENNA_AMPLITUDE
              * Real.sin (2 * Real.pi * cfg.ANTENNA_FREQUENCY * elapsed_time))
      ∧ (calculate_antenna_positions cfg elapsed_time true).2
          = -(calculate_antenna_positions cfg elapsed_time true).1 := by
  refine ⟨rfl, rfl, ?_⟩
  show deg2rad (-(cfg.ANTENNA_AMPLITUDE
      * Real.sin (2 * Real.pi * cfg.ANTENNA_FREQUENCY * elapsed_time)))
    = -deg2rad (cfg.ANTENNA_AMPLITUDE
      * Real.sin (2 * Real.pi * cfg.ANTENNA_FREQUENCY * elapsed_time))
  unfold deg2rad
  ring

/-- Frame pacing of `VideoProcessor._process_loop`: `frame_delay` is computed
once as `1.0 / TARGET_FPS`, and after successfully processing a frame the
loop calls `time.sleep(frame_delay)` unconditionally.  The `processing_time`
argument records how long the processing of the iteration took; the returned sleep
duration does not depend on it. -/
def iteration_sleep (target_fps : ℚ) (processing_time : ℚ) : ℚ := 1 / target_fps

/-- Modelled from the spec: sleep only the remainder of the frame budget
after processing, and not at all when processing already exceeded the
budget. -/
def iteration_sleep_spec (target_fps : ℚ) (processing_time : ℚ) : ℚ :=
  max 0 (1 / target_fps - processing_time)

/-- Claim C9 counterexample: at `target_fps = 10` with `0.2 s` of processing
(budget exceeded), the remainder sleep of the spec is `0` but the loop sleeps the
full `0.1 s` frame delay. -/
theorem C9_counterexample :
    iteration_sleep 10 (1/5) ≠ iteration_sleep_spec 10 (1/5) := by
  norm_num [iteration_sleep, iteration_sleep_spec]

/-- Claim C9 (amended): after processing a frame the loop always sleeps the
fixed duration `1 / target_fps`, independent of the time already spent
processing; this coincides with the remainder-of-budget sleep only when the
processing time is zero. -/
theorem C9_fixed_sleep (target_fps processing_time : ℚ) (hfps : 0 < target_fps) :
    iteration_sleep target_fps processing_time = 1 / target_fps
      ∧ (iteration_sleep target_fps processing_time
          = iteration_sleep_spec target_fps processing_time ↔ processing_time = 0) := by
  have hpos : 0 < 1 / target_fps := by positivity
  refine ⟨rfl, ?_⟩
  unfold iteration_sleep iteration_sleep_spec
  constructor
  · intro h
    rcases le_total (1 / target_fps - processing_time) 0 with hle | hle
    · rw [max_eq_left hle] at h
      linarith
    · rw [max_eq_right hle] at h
      linarith
  · intro h
    rw [h]
    rw [sub_zero, max_eq_right hpos.le]

/-- Witness for the amended C9 at `target_fps = 30`. -/
theorem C9_fixed_sleep_witness :
    iteration_sleep 30 0 = 1 / 30
      ∧ (iteration_sleep 30 0 = iteration_sleep_spec 30 0 ↔ (0 : ℚ) = 0) :=
  C9_fixed_sleep 30 0 (by norm_num)

/-- `AppState` (`app_state.py`): the lock-guarded shared fields.  The hands
snapshot entries are abstracted by a type parameter.  The lock only serialises
accessors, so the sequential get/set semantics is modelled directly. -/
structure AppState (α : Type) where
  finger_count : ℤ
  antennas_enabled : Bool
  sound_play_requested : Bool
  robot_control_command : Option String
  hands_data : List α

/-- `AppState.set_robot_control_command(direction)`. -/
def AppState.set_robot_control_command {α : Type} (s : AppState α)
    (direction : String) : AppState α :=
  { s with robot_control_command := some direction }

/-- `AppState.get_robot_control_command()`: under the lock, read the stored
command and clear it to `None`; returns (command, new state). -/
def AppState.get_robot_control_command {α : Type} (s : AppState α) :
    Option String × AppState α :=
  (s.robot_control_command, { s with robot_control_command := none })

/-- Claim C10: `get_robot_control_command` is a consuming read — it returns
the stored direction and clears it, so after `set_robot_control_command(d)` a
first get returns `d`, an immediate second get returns `None`, and neither
call changes any other `AppState` field. -/
theorem C10_consuming_read {α : Type} (s : AppState α) (d : String) :
    ((s.set_robot_control_command d).get_robot_control_command).1 = some d
      ∧ (((s.set_robot_control_command d).get_robot_control_command).2.get_robot_control_command).1
          = none
      ∧ (s.get_robot_control_command).1 = s.robot_control_command
      ∧ (s.get_robot_control_command).2.robot_control_command = none
      ∧ (s.get_robot_control_command).2.finger_count = s.finger_count
      ∧ (s.get_robot_control_command).2.antennas_enabled = s.antennas_enabled
      ∧ (s.get_robot_control_command).2.sound_play_requested = s.sound_play_requested
      ∧ (s.get_robot_control_command).2.hands_data = s.hands_data
      ∧ (((s.set_robot_control_command d).get_robot_control_command).2.get_robot_control_command).2
          = ((s.set_robot_control_command d).get_robot_control_command).2 :=
  ⟨rfl, rfl, rfl, rfl, rfl, rfl, rfl, rfl, rfl⟩

end VisionTracking
